import Mathlib

/-!
Shallow embedding of the vl-rag-system ingestion-and-retrieval pipeline
(`backend/rag/retriever.py`, `backend/rag/excel_loader.py`,
`backend/rag/ingest.py`, `backend/rag/embeddings.py`).

Python floats are modelled as rationals (`ℚ`), Python strings as `String`,
Python dicts as association lists with insertion-order upsert, and the
`try/except` boundary of `ExhibitionRetriever.search` as an `Except` input.
-/

namespace VLRag

/-! ### Python string primitives -/

/-- Whitespace test used by Python `str.split()` / `str.strip()`. -/
def wsChar (c : Char) : Bool := c.isWhitespace

/-- Python `str.lower()` (per-character lowering). -/
def pyLower (s : String) : String := ⟨s.data.map Char.toLower⟩

/-- Python `str.strip()`: drop whitespace from both ends. -/
def pyStrip (s : String) : String :=
  ⟨((s.data.dropWhile wsChar).reverse.dropWhile wsChar).reverse⟩

/-- Helper for `pySplit`: accumulate the current (reversed) token. -/
def splitWSAux : List Char → List Char → List String
  | [], acc => if acc = [] then [] else [⟨acc.reverse⟩]
  | c :: rest, acc =>
    if wsChar c then
      if acc = [] then splitWSAux rest []
      else (⟨acc.reverse⟩ : String) :: splitWSAux rest []
    else splitWSAux rest (c :: acc)

/-- Python `str.split()` with no argument: split on whitespace runs,
dropping empty tokens. -/
def pySplit (s : String) : List String := splitWSAux s.data []

/-- Occurrence of `sub` as a contiguous sublist of `s`. -/
def isInfixList (sub : List Char) : List Char → Bool
  | [] => sub.isEmpty
  | c :: rest => sub.isPrefixOf (c :: rest) || isInfixList sub rest

/-- Python `sub in s` substring test. -/
def containsSubstr (sub s : String) : Bool := isInfixList sub.data s.data

/-- Python `sep.join(parts)`. -/
def joinSep (sep : String) : List String → String
  | [] => ""
  | x :: xs => xs.foldl (fun acc y => acc ++ sep ++ y) x

/-- Python `s * n` for strings: `n` concatenated copies. -/
def repeatStr (s : String) (n : Nat) : String := String.join (List.replicate n s)

/-- Python `s.replace(c, r)` for a single-character pattern `c`
(the only shape of `str.replace` the source uses). -/
def replaceChar (s : String) (c : Char) (r : String) : String :=
  ⟨s.data.foldr (fun x acc => if x = c then r.data ++ acc else x :: acc) []⟩

/-- Python `d.get(k, default)` on a string-valued dict modelled as an
association list. -/
def dictGetD (d : List (String × String)) (k dflt : String) : String :=
  match d.find? (fun p => p.fst == k) with
  | some p => p.snd
  | none => dflt

/-- Python `k in d` on a dict modelled as an association list. -/
def dictContains (d : List (String × String)) (k : String) : Bool :=
  d.any (fun p => p.fst == k)

/-- Python `d[k] = v`: overwrite in place if the key exists (keeping its
position, as CPython dicts do), otherwise append. -/
def dictInsert : List (String × String) → String → String → List (String × String)
  | [], k, v => [(k, v)]
  | (k0, v0) :: rest, k, v =>
    if k0 == k then (k0, v) :: rest else (k0, v0) :: dictInsert rest k v

/-! ### `ExhibitionRetriever._calculate_relevance` (retriever.py 332-367) -/

/-- `set(query.lower().split())`: the distinct whitespace-separated terms of
the lower-cased query (iteration order of the set is irrelevant: the code
only counts matches). -/
def queryKeywords (query : String) : List String := (pySplit (pyLower query)).dedup

/-- The composite relevance score of `_calculate_relevance`:
`base_score = similarity * 0.5`; `keyword_score` counts distinct query terms
longer than 2 characters occurring as substrings of the lower-cased content,
then (for a non-empty term set) is rescaled to `min(count/total * 0.3, 0.3)`;
`type_score = 0.2`; the sum is clamped by `min(total, 1.0)`. -/
def calculate_relevance (content query : String) (similarity : ℚ) : ℚ :=
  let base_score := similarity * 0.5
  let query_keywords := queryKeywords query
  let content_lower := pyLower content
  let matched : ℚ :=
    ((query_keywords.filter
      (fun k => decide (2 < k.length) && containsSubstr k content_lower)).length : ℚ)
  let keyword_score :=
    if query_keywords = [] then matched
    else min (matched / (query_keywords.length : ℚ) * 0.3) 0.3
  let type_score : ℚ := 0.2
  min (base_score + keyword_score + type_score) 1

/-- Spec-side count (claim C2): total number of distinct whitespace-separated
terms of the lower-cased query. -/
def totalQueryTerms (query : String) : Nat := (queryKeywords query).length

/-- Spec-side count (claim C2): distinct query terms longer than 2 characters
occurring as substrings of the lower-cased content. -/
def matchedQueryTerms (content query : String) : Nat :=
  ((queryKeywords query).filter
    (fun k => decide (2 < k.length) && containsSubstr k (pyLower content))).length

/-! ### `ExhibitionRetriever._process_results` (retriever.py 274-330) -/

/-- One processed retrieval result (the dict built per candidate; the
`explanation` key is added after sorting/truncation, modelled by an initial
`""`). -/
structure RetrievalResult where
  rank : Nat
  content : String
  metadata : List (String × String)
  similarity : ℚ
  distance : ℚ
  relevance : ℚ
  rtype : String
  item_name : String
  category : String
  zone : String
  explanation : String
  deriving Repr, DecidableEq

/-- `similarity_score = 1.0 - distance if distance <= 1.0 else 0.0`. -/
def to_similarity (distance : ℚ) : ℚ := if distance ≤ 1 then 1 - distance else 0

/-- The result object built for the `i`-th candidate. -/
def build_result (query : String) (i : Nat) (doc : String)
    (md : List (String × String)) (dist : ℚ) : RetrievalResult :=
  let similarity := to_similarity dist
  { rank := i + 1
    content := doc
    metadata := md
    similarity := similarity
    distance := dist
    relevance := calculate_relevance doc query similarity
    rtype := dictGetD md "type" "unknown"
    item_name := dictGetD md "item_name" "未知作品"
    category := dictGetD md "category" "未知"
    zone := dictGetD md "zone" "未知"
    explanation := "" }

/-- `_generate_explanation` (retriever.py 369-412). -/
def generate_explanation (r : RetrievalResult) (query : String) (rank : Nat) : String :=
  let explanations := ["排名第" ++ toString rank ++ "位"]
  let explanations := explanations ++
    [if 0.8 < r.similarity then "高度相关"
     else if 0.6 < r.similarity then "比较相关"
     else if 0.4 < r.similarity then "一般相关"
     else "弱相关"]
  let explanations :=
    if r.category ≠ "" then explanations ++ ["属于" ++ r.category ++ "类别"] else explanations
  let content_lower := pyLower r.content
  let explanations :=
    if (pySplit (pyLower query)).any
        (fun k => decide (2 < k.length) && containsSubstr k content_lower) then
      explanations ++ ["包含查询关键词"]
    else explanations
  joinSep "，" explanations

/-- The post-sort loop `for i, result in enumerate(...): result["explanation"] =
self._generate_explanation(result, query, i + 1)`. -/
def addExplanations (query : String) : Nat → List RetrievalResult → List RetrievalResult
  | _, [] => []
  | i, r :: rs =>
    { r with explanation := generate_explanation r query (i + 1) } ::
      addExplanations query (i + 1) rs

/-- Raw vector-store response: the first (and only) row of the
`documents`/`metadatas`/`distances` arrays returned by `collection.query`. -/
structure QueryResults where
  documents : List String
  metadatas : List (List (String × String))
  distances : List ℚ

/-- `_process_results`: build a result per candidate, sort descending by
relevance (Python's stable sort with `reverse=True`, modelled by a stable
merge sort on the flipped comparison), truncate to `top_k`, then attach
explanations. -/
def process_results (res : QueryResults) (query : String) (top_k : Nat) :
    List RetrievalResult :=
  if res.documents = [] then []
  else
    let n := min res.documents.length (min res.metadatas.length res.distances.length)
    let items := (List.range n).map (fun i =>
      build_result query i (res.documents.getD i "") (res.metadatas.getD i [])
        (res.distances.getD i 0))
    let sorted := items.mergeSort (fun a b => decide (b.relevance ≤ a.relevance))
    let truncated := sorted.take top_k
    addExplanations query 0 truncated

/-- `ExhibitionRetriever.search` (retriever.py 52-98): the whole body runs in
`try/except`; the outcome of the embedding + vector-store query (and of any
step inside the body) is modelled by an `Except` input. An exception yields
`[]`; a successful query is post-processed by `_process_results`. -/
def search (outcome : Except String QueryResults) (query : String) (top_k : Nat) :
    List RetrievalResult :=
  match outcome with
  | Except.error _ => []
  | Except.ok res => process_results res query top_k

/-- `Retriever.retrieve` (retriever.py 528-550): collect the stripped
non-empty contents of the search results and join them with a double line
break. -/
def retrieve (outcome : Except String QueryResults) (query : String) (top_k : Nat) :
    String :=
  let results := search outcome query top_k
  joinSep "\n\n" ((results.map (fun r => pyStrip r.content)).filter (fun t => t ≠ ""))

/-- The per-result display lines of `format_results_for_display`
(`fmt` abstracts Python's `"{:.3f}".format` float rendering). -/
def entryLines (fmt : ℚ → String) : Nat → List RetrievalResult → List String
  | _, [] => []
  | i, r :: rs =>
    ("\n[" ++ toString (i + 1) ++ "] " ++ r.item_name) ::
    ("   相似度: " ++ fmt r.similarity ++ " - " ++ r.explanation) ::
    ("   类别: " ++ r.category) ::
    ("   展区: " ++ r.zone) ::
    ("   内容: " ++
      (if 150 < r.content.length then r.content.take 150 ++ "..." else r.content)) ::
    entryLines fmt (i + 1) rs

/-- `ExhibitionRetriever.format_results_for_display` (retriever.py 414-447):
an empty result list yields the descriptive sentinel text, otherwise a
formatted listing. -/
def format_results_for_display (fmt : ℚ → String)
    (results : List RetrievalResult) (query : String) : String :=
  if results = [] then "未找到与\x27" ++ query ++ "\x27相关的结果。"
  else
    joinSep "\n"
      ((("📊 搜索结果（查询：\x27" ++ query ++ "\x27）") :: repeatStr "=" 60 ::
        entryLines fmt 0 results) ++
       ["\n总计找到 " ++ toString results.length ++ " 个相关结果"])

/-! ### `get_collection_statistics` cache (retriever.py 198-263) -/

/-- Python `timedelta.seconds` of a nonnegative elapsed time of `e` whole
seconds: the within-day seconds component `e % 86400` (NOT the total elapsed
seconds `timedelta.total_seconds()`). -/
def timedeltaSeconds (e : Nat) : Nat := e % 86400

/-- The cache gate of `get_collection_statistics`: the cached statistics are
returned iff `force_refresh` is off, a cached value and timestamp exist, and
`(datetime.now() - self._stats_time).seconds < 300`. Otherwise the fresh
recomputation (abstracted as `fresh`) is returned. `cache` pairs the cached
value with its wall-clock timestamp; `now` is the current wall-clock time in
seconds. -/
def get_collection_statistics {α : Type} (force : Bool)
    (cache : Option (α × Nat)) (now : Nat) (fresh : α) : α :=
  match cache with
  | some (c, t) => if force = false ∧ timedeltaSeconds (now - t) < 300 then c else fresh
  | none => fresh

/-! ### Header-row detection (`excel_loader.py 87-121`) -/

/-- The fixed keyword set `['展区', '作品名称', '设计作者', '序号']`. -/
def header_keywords : List String := ["展区", "作品名称", "设计作者", "序号"]

/-- `' '.join([str(h) for h in row if h])`: the space-joined non-empty cells
of a row. -/
def joinCells (row : List String) : String :=
  joinSep " " (row.filter (fun c => c ≠ ""))

/-- `sum(1 for keyword in header_keywords if keyword in row_str)`. -/
def headerScore (row : List String) : Nat :=
  (header_keywords.filter (fun k => containsSubstr k (joinCells row))).length

/-- The fallback scan `for idx in range(min(10, len(raw_df))): ... break`
over a list of row indices; exhausting the loop leaves the default index 1. -/
def scanHeaderRows (grid : List (List String)) : List Nat → Nat
  | [] => 1
  | i :: rest =>
    if 2 ≤ headerScore (grid.getD i []) then i else scanHeaderRows grid rest

/-- Header-row detection of `_process_complex_sheet`: the default candidate
row index 1 is accepted if it matches at least 2 keywords; otherwise the
first 10 rows are scanned in order and the first row matching at least 2
keywords wins; if none qualifies the default 1 is kept. -/
def detect_header_row (grid : List (List String)) : Nat :=
  if 2 ≤ headerScore (grid.getD 1 []) then 1
  else scanHeaderRows grid (List.range (min 10 grid.length))

/-- `data_start_row = header_row_idx + 1`. -/
def data_start_row (grid : List (List String)) : Nat := detect_header_row grid + 1

/-! ### Record extraction and document synthesis (`excel_loader.py 158-424`) -/

/-- `self.category_map`. -/
def category_map : List (String × String) :=
  [("工业设计类", "工业设计"), ("环境设计类", "环境设计"), ("艺术与科技类", "艺术与科技")]

/-- `_map_sheet_to_category`: exact key lookup, then substring match of a key
inside the sheet name, then hard-coded substring fallbacks, else the sheet
name with `类` removed and stripped. -/
def map_sheet_to_category (sheet_name : String) : String :=
  match category_map.find? (fun p => p.fst == sheet_name) with
  | some p => p.snd
  | none =>
    match category_map.find? (fun p => containsSubstr p.fst sheet_name) with
    | some p => p.snd
    | none =>
      if containsSubstr "工业" sheet_name then "工业设计"
      else if containsSubstr "环境" sheet_name then "环境设计"
      else if containsSubstr "艺术" sheet_name || containsSubstr "科技" sheet_name then
        "艺术与科技"
      else pyStrip (replaceChar sheet_name '类' "")

/-- Column-name cleanup `str(header).strip().replace('\n', ' ').replace('\r', '')`. -/
def normalizeColName (h : String) : String :=
  replaceChar (replaceChar (pyStrip h) '\n' " ") '\r' ""

/-- `_extract_item_info`: zip header labels with cell values positionally,
keeping only cells present and non-blank; return `{}` (here `[]`) when
nothing was extracted; add `sheet_name` and `category`; fall back to column
0 for `展区`; discard the record (`[]`) when `作品名称` is absent or empty. -/
def extract_item_info (row_data header_row : List String) (sheet_name : String) :
    List (String × String) :=
  let base := header_row.enum.foldl (fun d p =>
    if p.snd ≠ "" ∧ pyStrip p.snd ≠ "" ∧ p.fst < row_data.length then
      let value := row_data.getD p.fst ""
      if pyStrip value ≠ "" then dictInsert d (normalizeColName p.snd) (pyStrip value)
      else d
    else d) []
  if base = [] then []
  else
    let info := dictInsert base "sheet_name" sheet_name
    let info := dictInsert info "category" (map_sheet_to_category sheet_name)
    let info :=
      if dictContains info "展区" = false ∧ row_data ≠ [] ∧ row_data.getD 0 "" ≠ "" then
        dictInsert info "展区" (pyStrip (row_data.getD 0 ""))
      else info
    if dictContains info "作品名称" = false ∨ dictGetD info "作品名称" "" = "" then []
    else info

/-- A metadata value of a synthesized document (Python dict values are
strings, booleans, or lists of strings here). -/
inductive MetaValue where
  | s (v : String)
  | b (v : Bool)
  | strList (v : List String)
  deriving Repr, DecidableEq

/-- A langchain `Document`: page content plus metadata. -/
structure Doc where
  page_content : String
  metadata : List (String × MetaValue)
  deriving Repr, DecidableEq

/-- String-valued metadata lookup. -/
def metaGetStr (md : List (String × MetaValue)) (k : String) : Option String :=
  match md.find? (fun p => p.fst == k) with
  | some (_, MetaValue.s v) => some v
  | _ => none

/-- `_create_basic_info_doc`. -/
def create_basic_info_doc (filePath : String) (info : List (String × String))
    (sheet_name : String) : Option Doc :=
  let gv := fun k => dictGetD info k ""
  let item_name := pyStrip (gv "作品名称")
  if item_name = "" then none
  else
    let item_id := if gv "序号/点位" ≠ "" then gv "序号/点位" else gv "序号"
    let sub_category := dictGetD info "类别标签" (dictGetD info "类别" "")
    let content :=
      "\n【作品基本信息】\n\n作品名称：" ++ item_name ++
      "\n展区位置：" ++ gv "展区" ++ " - " ++ item_id ++
      "\n作品类别：" ++ gv "category" ++ " / " ++ sub_category ++
      "\n呈现形式：" ++ gv "呈现形式" ++
      "\n\n设计作者：" ++ gv "设计作者" ++
      "\n指导老师：" ++ gv "指导老师" ++
      "\n创作时间：" ++ gv "创作时间" ++
      "\n\n【作品简介】\n" ++ dictGetD info "作品描述（简）" "暂无描述" ++ "\n"
    some
      { page_content := pyStrip content
        metadata :=
          [("source", MetaValue.s filePath), ("sheet_name", MetaValue.s sheet_name),
           ("category", MetaValue.s (gv "category")), ("type", MetaValue.s "basic_info"),
           ("item_name", MetaValue.s item_name), ("zone", MetaValue.s (gv "展区")),
           ("item_id", MetaValue.s item_id), ("sub_category", MetaValue.s sub_category),
           ("display_form", MetaValue.s (gv "呈现形式")),
           ("authors", MetaValue.s (gv "设计作者")),
           ("instructor", MetaValue.s (gv "指导老师")),
           ("creation_time", MetaValue.s (gv "创作时间"))] }

/-- `_create_detailed_info_doc`. -/
def create_detailed_info_doc (filePath : String) (info : List (String × String))
    (sheet_name : String) : Option Doc :=
  let gv := fun k => dictGetD info k ""
  let detail_fields :=
    [("设计动机", gv "设计动机"), ("灵感来源", gv "灵感来源"),
     ("设计目的/意义", gv "设计目的/意义"), ("创作历程", gv "创作历程"),
     ("面临的困难", gv "面临的困难")]
  let valid_details := detail_fields.filter
    (fun p => decide (p.snd ≠ "") && decide (pyStrip p.snd ≠ ""))
  if valid_details = [] then none
  else
    let item_id := if gv "序号/点位" ≠ "" then gv "序号/点位" else gv "序号"
    let content :=
      "\n【作品详细描述】\n\n作品名称：" ++ gv "作品名称" ++
      "\n展区位置：" ++ gv "展区" ++ " - " ++ item_id ++
      "\n作品类别：" ++ gv "category" ++ "\n" ++
      String.join (valid_details.map (fun p => "\n【" ++ p.fst ++ "】\n" ++ p.snd ++ "\n"))
    some
      { page_content := pyStrip content
        metadata :=
          [("source", MetaValue.s filePath), ("sheet_name", MetaValue.s sheet_name),
           ("category", MetaValue.s (gv "category")),
           ("type", MetaValue.s "detailed_info"),
           ("item_name", MetaValue.s (gv "作品名称")),
           ("zone", MetaValue.s (gv "展区")), ("item_id", MetaValue.s item_id),
           ("has_details", MetaValue.b true),
           ("detail_fields", MetaValue.strList (valid_details.map Prod.fst))] }

/-- `_create_design_concept_doc`. -/
def create_design_concept_doc (filePath : String) (info : List (String × String))
    (sheet_name : String) : Option Doc :=
  let gv := fun k => dictGetD info k ""
  let design_concept := gv "设计理念/风格"
  let visual_language := gv "视觉形式语言"
  if design_concept = "" ∧ visual_language = "" then none
  else
    let content :=
      "\n【设计理念与视觉风格】\n\n作品名称：" ++ gv "作品名称" ++
      "\n作品类别：" ++ gv "category" ++ "\n" ++
      (if design_concept ≠ "" then "\n设计理念：\n" ++ design_concept ++ "\n" else "") ++
      (if visual_language ≠ "" then "\n视觉形式语言：\n" ++ visual_language ++ "\n" else "")
    some
      { page_content := pyStrip content
        metadata :=
          [("source", MetaValue.s filePath), ("sheet_name", MetaValue.s sheet_name),
           ("category", MetaValue.s (gv "category")),
           ("type", MetaValue.s "design_concept"),
           ("item_name", MetaValue.s (gv "作品名称")),
           ("has_design_concept", MetaValue.b (decide (design_concept ≠ ""))),
           ("has_visual_language", MetaValue.b (decide (visual_language ≠ "")))] }

/-- `_create_tech_info_doc`. -/
def create_tech_info_doc (filePath : String) (info : List (String × String))
    (sheet_name : String) : Option Doc :=
  let gv := fun k => dictGetD info k ""
  let technique := gv "技术特点"
  let expected_effect := gv "预期效果"
  if technique = "" ∧ expected_effect = "" then none
  else
    let content :=
      "\n【技术特点与预期效果】\n\n作品名称：" ++ gv "作品名称" ++
      "\n作品类别：" ++ gv "category" ++ "\n" ++
      (if technique ≠ "" then "\n技术特点：\n" ++ technique ++ "\n" else "") ++
      (if expected_effect ≠ "" then "\n预期效果：\n" ++ expected_effect ++ "\n" else "")
    some
      { page_content := pyStrip content
        metadata :=
          [("source", MetaValue.s filePath), ("sheet_name", MetaValue.s sheet_name),
           ("category", MetaValue.s (gv "category")), ("type", MetaValue.s "tech_info"),
           ("item_name", MetaValue.s (gv "作品名称")),
           ("has_technique", MetaValue.b (decide (technique ≠ ""))),
           ("has_expected_effect", MetaValue.b (decide (expected_effect ≠ "")))] }

/-- `_create_documents_for_item`: reject an empty or `未知` item name, then
collect the four optional documents in order (the `try/except` around the
builders cannot fire: the builders are pure). -/
def create_documents_for_item (filePath : String) (info : List (String × String))
    (sheet_name : String) : List Doc :=
  let item_name := pyStrip (dictGetD info "作品名称" "")
  if item_name = "" ∨ item_name = "未知" then []
  else
    [create_basic_info_doc filePath info sheet_name,
     create_detailed_info_doc filePath info sheet_name,
     create_design_concept_doc filePath info sheet_name,
     create_tech_info_doc filePath info sheet_name].filterMap id

/-! ### Document chunking (`ingest.py 371-479`) -/

/-- `doc.metadata.get("type", "unknown")`. -/
def docType (d : Doc) : String :=
  match metaGetStr d.metadata "type" with
  | some v => v
  | none => "unknown"

/-- Modelled from the spec: the text splitter itself is langchain's
`RecursiveCharacterTextSplitter`, third-party code absent from this
repository; `split_documents` only configures it. Per spec §4.3 a document
of a split class is cut into windows of at most `size` characters and
"Overlap is measured in characters taken from the tail of the previous chunk
and prefixed to the next", with "consecutive chunks share a tail/prefix of
exactly 100 characters" for `detailed_info` (size 800, overlap 100). A text
of at most `size` characters stays whole; a longer one becomes the minimal
number of `size`-wide windows stepping by `size - overlap`. -/
def chunkWindows (size overlap : Nat) (xs : List Char) : List (List Char) :=
  let step := size - overlap
  if xs.length ≤ size then [xs]
  else (List.range ((xs.length - size + (step - 1)) / step + 1)).map
    (fun i => (xs.drop (step * i)).take size)

/-- Split every document of one class with the given window size and
overlap; each chunk keeps its parent's metadata (as langchain's
`split_documents` does). -/
def splitDocsWith (size overlap : Nat) (ds : List Doc) : List Doc :=
  (ds.map (fun d =>
    (chunkWindows size overlap d.page_content.data).map
      (fun c => { d with page_content := ⟨c⟩ }))).flatten

/-- `split_documents` (ingest.py 371-479): partition the documents by
metadata type; `basic_info` and `image_info` documents pass through unsplit;
`detailed_info` is split at 800/100, `design_concept` at 600/80,
`system_summary`/`user_guide` at 700/90, everything else at 500/50; the
buckets are concatenated in the order the source extends `chunks`. -/
def split_documents (docs : List Doc) : List Doc :=
  let basic := docs.filter (fun d => docType d == "basic_info")
  let detailed := docs.filter (fun d => docType d == "detailed_info")
  let image := docs.filter (fun d => docType d == "image_info")
  let concept := docs.filter (fun d => docType d == "design_concept")
  let summary := docs.filter
    (fun d => docType d == "system_summary" || docType d == "user_guide")
  let other := docs.filter (fun d =>
    !(docType d == "basic_info") && !(docType d == "detailed_info") &&
    !(docType d == "image_info") && !(docType d == "design_concept") &&
    !(docType d == "system_summary" || docType d == "user_guide"))
  basic ++ image ++ splitDocsWith 800 100 detailed ++ splitDocsWith 600 80 concept ++
    splitDocsWith 700 90 summary ++ splitDocsWith 500 50 other

/-- Concrete fixture: an 801-character `detailed_info` document, long
enough to require a split. -/
def sampleDetailedDoc : Doc :=
  { page_content := ⟨List.replicate 801 'a'⟩
    metadata := [("type", MetaValue.s "detailed_info")] }

/-! ### Batched embedding (`embeddings.py 65-127`) -/

/-- The batch loop `for i in range(0, len(texts), batch_size):
texts[i:i + batch_size]`. -/
def batchesOf (b : Nat) : List α → List (List α)
  | [] => []
  | x :: xs => (x :: xs.take (b - 1)) :: batchesOf b (xs.drop (b - 1))
  termination_by l => l.length
  decreasing_by simp [List.length_drop]; omega

/-- `EmbeddingManager.embed_texts`: an empty input returns `[]`; otherwise
the texts are processed in fixed batches of 32 and the per-batch outputs are
stacked in order (`np.vstack`). Tokenization (with padding masked out of the
pooling), the transformer forward pass, and the attention-mask-weighted mean
pooling all act row-wise, so the net per-text computation is abstracted as
`f : String → List ℚ`; the final row-wise
`torch.nn.functional.normalize(p=2, dim=1)` is abstracted as
`nrm : List ℚ → List ℚ` applied to each pooled row. -/
def embed_texts (f : String → List ℚ) (nrm : List ℚ → List ℚ)
    (texts : List String) : List (List ℚ) :=
  if texts = [] then []
  else ((batchesOf 32 texts).map (fun batch => (batch.map f).map nrm)).flatten

/-- `embed_texts` with the batch size left as a parameter, to state that the
output does not depend on how the input is cut into batches. -/
def embedTextsWithBatch (f : String → List ℚ) (nrm : List ℚ → List ℚ)
    (b : Nat) (texts : List String) : List (List ℚ) :=
  if texts = [] then []
  else ((batchesOf b texts).map (fun batch => (batch.map f).map nrm)).flatten

/-- The squared Euclidean norm of a vector. -/
def sumSq (v : List ℚ) : ℚ := (v.map (fun x => x * x)).sum

/-- Row-wise rescaling by a scalar: `torch.nn.functional.normalize(p=2,
dim=1)` multiplies each row `v` by `c = 1 / max(‖v‖₂, ε)`; over `ℚ` that
scalar is characterized by `c² · sumSq v = 1` whenever `‖v‖₂ ≥ ε`. -/
def l2Rescale (c : ℚ) (v : List ℚ) : List ℚ := v.map (fun x => x * c)

/-! ## Helper lemmas -/

theorem to_similarity_nonneg (d : ℚ) : 0 ≤ to_similarity d := by
  unfold to_similarity
  split <;> linarith

theorem calculate_relevance_bounds (content query : String) {s : ℚ} (hs : 0 ≤ s) :
    0.2 ≤ calculate_relevance content query s ∧ calculate_relevance content query s ≤ 1 := by
  unfold calculate_relevance
  have hkw :
      (0:ℚ) ≤
        (if queryKeywords query = [] then
          (((queryKeywords query).filter
            (fun k => decide (2 < k.length) && containsSubstr k (pyLower content))).length : ℚ)
        else
          min ((((queryKeywords query).filter
            (fun k => decide (2 < k.length) && containsSubstr k (pyLower content))).length : ℚ) /
              ((queryKeywords query).length : ℚ) * 0.3) 0.3) := by
    split
    · exact Nat.cast_nonneg _
    · apply le_min
      · positivity
      · norm_num
  constructor
  · apply le_min
    · nlinarith
    · norm_num
  · exact min_le_right _ _

theorem build_result_relevance_bounds (query : String) (i : Nat) (doc : String)
    (md : List (String × String)) (dist : ℚ) :
    0.2 ≤ (build_result query i doc md dist).relevance ∧
      (build_result query i doc md dist).relevance ≤ 1 :=
  calculate_relevance_bounds doc query (to_similarity_nonneg dist)

theorem mem_addExplanations {query : String} :
    ∀ {n : Nat} {l : List RetrievalResult} {x : RetrievalResult},
      x ∈ addExplanations query n l → ∃ y ∈ l, x.relevance = y.relevance := by
  intro n l
  induction l generalizing n with
  | nil => intro x hx; simp [addExplanations] at hx
  | cons r rs ih =>
    intro x hx
    simp only [addExplanations, List.mem_cons] at hx
    rcases hx with hx | hx
    · exact ⟨r, List.mem_cons_self r rs, by simp [hx]⟩
    · obtain ⟨y, hy, hrel⟩ := ih hx
      exact ⟨y, List.mem_cons_of_mem r hy, hrel⟩

theorem length_addExplanations (query : String) :
    ∀ (n : Nat) (l : List RetrievalResult), (addExplanations query n l).length = l.length := by
  intro n l
  induction l generalizing n with
  | nil => simp [addExplanations]
  | cons r rs ih => simp [addExplanations, ih]

theorem pairwise_addExplanations {query : String} :
    ∀ {n : Nat} {l : List RetrievalResult},
      l.Pairwise (fun a b => b.relevance ≤ a.relevance) →
      (addExplanations query n l).Pairwise (fun a b => b.relevance ≤ a.relevance) := by
  intro n l
  induction l generalizing n with
  | nil => intro _; simp [addExplanations]
  | cons r rs ih =>
    intro h
    rcases List.pairwise_cons.mp h with ⟨hr, hrs⟩
    refine List.pairwise_cons.mpr ⟨?_, ih hrs⟩
    intro x hx
    obtain ⟨y, hy, hrel⟩ := mem_addExplanations hx
    simpa [hrel] using hr y hy

theorem mem_process_results_relevance {res : QueryResults} {query : String} {top_k : Nat}
    {r : RetrievalResult} (hr : r ∈ process_results res query top_k) :
    0.2 ≤ r.relevance ∧ r.relevance ≤ 1 := by
  unfold process_results at hr
  split at hr
  · simp at hr
  · obtain ⟨y, hy, hrel⟩ := mem_addExplanations hr
    have hy2 : y ∈ (List.range (min res.documents.length
        (min res.metadatas.length res.distances.length))).map (fun i =>
          build_result query i (res.documents.getD i "") (res.metadatas.getD i [])
            (res.distances.getD i 0)) :=
      List.mem_mergeSort.mp (List.take_subset _ _ hy)
    obtain ⟨i, _, hbuild⟩ := List.mem_map.mp hy2
    rw [hrel, ← hbuild]
    exact build_result_relevance_bounds query i _ _ _

/-! ## Claim theorems -/

/-- C1: for every query, vector-store outcome and `top_k ≥ 1`, the list
returned by `ExhibitionRetriever.search` has at most `top_k` elements, every
result's `relevance` lies in `[0, 1]`, and the results are ordered by
non-increasing composite `relevance` (the sort key is the re-ranked
relevance, not the raw vector similarity). -/
theorem search_topk_bounded_and_sorted (outcome : Except String QueryResults)
    (query : String) (top_k : Nat) (_htk : 1 ≤ top_k) :
    (search outcome query top_k).length ≤ top_k ∧
    (∀ r ∈ search outcome query top_k, 0 ≤ r.relevance ∧ r.relevance ≤ 1) ∧
    (search outcome query top_k).Pairwise (fun a b => b.relevance ≤ a.relevance) := by
  match outcome with
  | Except.error e => simp [search]
  | Except.ok res =>
    refine ⟨?_, ?_, ?_⟩
    · show (process_results res query top_k).length ≤ top_k
      unfold process_results
      split
      · simp
      · rw [length_addExplanations]
        exact (List.length_take_le _ _)
    · intro r hr
      have h := mem_process_results_relevance hr
      constructor
      · linarith [h.1]
      · exact h.2
    · show (process_results res query top_k).Pairwise _
      unfold process_results
      split
      · simp
      · apply pairwise_addExplanations
        apply List.Pairwise.sublist (List.take_sublist _ _)
        have hs := @List.sorted_mergeSort RetrievalResult
          (fun a b => decide (b.relevance ≤ a.relevance))
          (fun a b c hab hbc => by
            simp only [decide_eq_true_eq] at *
            exact le_trans hbc hab)
          (fun a b => by
            simp only [Bool.or_eq_true, decide_eq_true_eq]
            exact le_total _ _)
          ((List.range (min res.documents.length
            (min res.metadatas.length res.distances.length))).map (fun i =>
              build_result query i (res.documents.getD i "") (res.metadatas.getD i [])
                (res.distances.getD i 0)))
        exact hs.imp (fun h => of_decide_eq_true h)

/-- Witness for C1 at a concrete vector-store response and `top_k = 1`. -/
theorem search_topk_bounded_and_sorted_witness :
    1 ≤ 1 ∧
    ((search (Except.ok ⟨["展品甲", "展品乙"], [[], []], [0, 1]⟩) "互动装置" 1).length ≤ 1 ∧
     (∀ r ∈ search (Except.ok ⟨["展品甲", "展品乙"], [[], []], [0, 1]⟩) "互动装置" 1,
        0 ≤ r.relevance ∧ r.relevance ≤ 1) ∧
     (search (Except.ok ⟨["展品甲", "展品乙"], [[], []], [0, 1]⟩) "互动装置" 1).Pairwise
        (fun a b => b.relevance ≤ a.relevance)) :=
  ⟨le_refl 1,
   search_topk_bounded_and_sorted (Except.ok ⟨["展品甲", "展品乙"], [[], []], [0, 1]⟩)
     "互动装置" 1 (le_refl 1)⟩

/-- C2: the composite relevance equals
`min(1.0, 0.5·s + keyword_score + 0.2)` with
`keyword_score = min(0.3, 0.3 · matched/total)`, where `total` counts the
distinct whitespace-separated terms of the lower-cased query and `matched`
counts those terms longer than 2 characters occurring as substrings of the
lower-cased content (for an empty query both sides degenerate to a zero
keyword score: `ℚ` division by zero is zero). -/
theorem relevance_matches_spec_formula (content query : String) (s : ℚ) :
    calculate_relevance content query s =
      min 1 (0.5 * s +
        min 0.3 (0.3 * (matchedQueryTerms content query : ℚ) /
          (totalQueryTerms query : ℚ)) + 0.2) := by
  unfold calculate_relevance matchedQueryTerms totalQueryTerms
  by_cases h : queryKeywords query = []
  · simp only [h, if_pos rfl, List.filter_nil, List.length_nil, Nat.cast_zero]
    rw [min_comm]
    norm_num
    congr 1
    ring
  · simp only [if_neg h]
    rw [min_comm]
    have harg :
        (((queryKeywords query).filter (fun k =>
            decide (2 < k.length) && containsSubstr k (pyLower content))).length : ℚ) /
            ((queryKeywords query).length : ℚ) * 0.3 =
          0.3 * (((queryKeywords query).filter (fun k =>
            decide (2 < k.length) && containsSubstr k (pyLower content))).length : ℚ) /
            ((queryKeywords query).length : ℚ) := by
      ring
    rw [harg, min_comm
      ((0.3:ℚ) * _ / ((queryKeywords query).length : ℚ)) (0.3:ℚ)]
    ring_nf

/-- C3: the whole body of `ExhibitionRetriever.search` runs under
`try/except`: an exception anywhere inside (modelled by the `Except.error`
outcome of the embedding + vector-store query) yields the empty result list
instead of propagating, and a successful query yields exactly the processed
results. -/
theorem search_swallows_exceptions (e : String) (res : QueryResults)
    (query : String) (top_k : Nat) :
    search (Except.error e) query top_k = [] ∧
    search (Except.ok res) query top_k = process_results res query top_k :=
  ⟨rfl, rfl⟩

/-- C9 (code bug evidence): with a cached value `7` recorded at time `0`, a
non-forced call at time `86400` (exactly one day later, far beyond the
advertised 300-second TTL) still returns the stale cached `7` instead of the
fresh recomputation `99`, because `timedelta.seconds` is the within-day
component `86400 % 86400 = 0 < 300`. -/
theorem stats_cache_stale_after_whole_day :
    get_collection_statistics false (some ((7:Nat), 0)) 86400 99 = 7 ∧
    (300:Nat) ≤ 86400 - 0 := by
  constructor
  · rfl
  · norm_num

/-- C10: every result returned by `ExhibitionRetriever.search` has
relevance at least `0.2`: the composite score contains the unconditional
`type_score = 0.2` and its other addends are non-negative, and the clamp
`min(·, 1.0)` cannot push it below `0.2`. -/
theorem search_relevance_at_least_type_score (outcome : Except String QueryResults)
    (query : String) (top_k : Nat) :
    ∀ r ∈ search outcome query top_k, 0.2 ≤ r.relevance := by
  intro r hr
  match outcome with
  | Except.error e => simp [search] at hr
  | Except.ok res =>
    exact (mem_process_results_relevance hr).1

/-- Witness for C10: a concrete single-candidate search in which the
candidate has distance 0 and the empty query, whose processed result the
theorem bounds from below by `0.2`. -/
theorem search_relevance_at_least_type_score_witness :
    ({ build_result "" 0 "x" [] 0 with
        explanation := generate_explanation (build_result "" 0 "x" [] 0) "" 1 } ∈
      search (Except.ok ⟨["x"], [[]], [0]⟩) "" 1) ∧
    0.2 ≤ ({ build_result "" 0 "x" [] 0 with
        explanation := generate_explanation (build_result "" 0 "x" [] 0) "" 1
      } : RetrievalResult).relevance := by
  have hmem :
      ({ build_result "" 0 "x" [] 0 with
          explanation := generate_explanation (build_result "" 0 "x" [] 0) "" 1 } ∈
        search (Except.ok ⟨["x"], [[]], [0]⟩) "" 1) := by
    show _ ∈ process_results ⟨["x"], [[]], [0]⟩ "" 1
    simp [process_results, addExplanations, List.mergeSort_singleton, List.range_succ,
      List.take_succ_cons, List.take_nil]
  exact ⟨hmem, search_relevance_at_least_type_score (Except.ok ⟨["x"], [[]], [0]⟩) "" 1 _ hmem⟩

/-- C4 (counterexample): on an empty candidate set `Retriever.retrieve`
returns the EMPTY string — the `"\n\n"`-join of zero stripped contents —
and not the descriptive "no results" sentinel text the claim promises. -/
theorem retrieve_empty_counterexample :
    retrieve (Except.ok ⟨[], [], []⟩) "互动装置" 3 = "" ∧
    retrieve (Except.ok ⟨[], [], []⟩) "互动装置" 3 ≠ "未找到与\x27互动装置\x27相关的结果。" :=
  ⟨rfl, by decide⟩

/-- C4 (amended): when the candidate set is empty,
`Retriever.retrieve` returns the empty string; the descriptive "no results"
sentinel (`未找到与'query'相关的结果。`) is produced by the other
presentation path, `ExhibitionRetriever.format_results_for_display`, on an
empty result list. -/
theorem retrieve_empty_amended (outcome : Except String QueryResults) (query : String)
    (top_k : Nat) (fmt : ℚ → String) :
    (search outcome query top_k = [] → retrieve outcome query top_k = "") ∧
    format_results_for_display fmt [] query =
      "未找到与\x27" ++ query ++ "\x27相关的结果。" := by
  constructor
  · intro h
    unfold retrieve
    rw [h]
    rfl
  · rfl

/-- Witness for C4 (amended) at a failed vector-store query. -/
theorem retrieve_empty_amended_witness :
    retrieve (Except.error "连接失败") "展览" 3 = "" ∧
    format_results_for_display (fun _ => "") [] "展览" =
      "未找到与\x27展览\x27相关的结果。" :=
  ⟨(retrieve_empty_amended (Except.error "连接失败") "展览" 3 (fun _ => "")).1 rfl,
   (retrieve_empty_amended (Except.error "连接失败") "展览" 3 (fun _ => "")).2⟩

/-- The fallback scan over `range' a k` finds the first qualifying row
index; if none qualifies it returns the default index 1. -/
theorem scanHeaderRows_range'_spec (grid : List (List String)) :
    ∀ (k a : Nat),
      ((∀ j, a ≤ j → j < a + k → headerScore (grid.getD j []) < 2) →
        scanHeaderRows grid (List.range' a k) = 1) ∧
      (∀ j, a ≤ j → j < a + k → 2 ≤ headerScore (grid.getD j []) →
        a ≤ scanHeaderRows grid (List.range' a k) ∧
        scanHeaderRows grid (List.range' a k) < a + k ∧
        2 ≤ headerScore (grid.getD (scanHeaderRows grid (List.range' a k)) []) ∧
        ∀ i, a ≤ i → i < scanHeaderRows grid (List.range' a k) →
          headerScore (grid.getD i []) < 2) := by
  intro k
  induction k with
  | zero =>
    intro a
    refine ⟨fun _ => rfl, fun j hj1 hj2 _ => ?_⟩
    omega
  | succ k ih =>
    intro a
    rw [List.range'_succ]
    by_cases h : 2 ≤ headerScore (grid.getD a [])
    · have hsc : scanHeaderRows grid (a :: List.range' (a + 1) k) = a := by
        simp only [scanHeaderRows]
        rw [if_pos h]
      constructor
      · intro hall
        have := hall a (le_refl a) (by omega)
        omega
      · intro j hj1 hj2 hj3
        rw [hsc]
        exact ⟨le_refl a, by omega, h, fun i hi1 hi2 => by omega⟩
    · have hsc : scanHeaderRows grid (a :: List.range' (a + 1) k) =
          scanHeaderRows grid (List.range' (a + 1) k) := by
        simp only [scanHeaderRows]
        rw [if_neg h]
      rw [hsc]
      constructor
      · intro hall
        exact (ih (a + 1)).1 (fun j hj1 hj2 => hall j (by omega) (by omega))
      · intro j hj1 hj2 hj3
        have hja : j ≠ a := fun he => h (he ▸ hj3)
        obtain ⟨h1, h2, h3, h4⟩ := (ih (a + 1)).2 j (by omega) (by omega) hj3
        refine ⟨by omega, by omega, h3, ?_⟩
        intro i hi1 hi2
        rcases Nat.eq_or_lt_of_le hi1 with he | hlt
        · rw [← he]
          omega
        · exact h4 i (by omega) hi2

/-- C5: header-row detection first scores the default candidate row index 1
by counting keywords of `{展区, 作品名称, 设计作者, 序号}` in the join of
its non-empty cells and accepts it when the score is at least 2; otherwise
the first 10 rows are scanned in order and the first row scoring at least 2
wins; if none qualifies the default index 1 is used; data rows start
immediately after the chosen header row. -/
theorem header_detection_spec (grid : List (List String))
    (_hrows : 2 ≤ grid.length) :
    (2 ≤ headerScore (grid.getD 1 []) → detect_header_row grid = 1) ∧
    (headerScore (grid.getD 1 []) < 2 →
      ((∀ j, j < min 10 grid.length → headerScore (grid.getD j []) < 2) →
        detect_header_row grid = 1) ∧
      (∀ j, j < min 10 grid.length → 2 ≤ headerScore (grid.getD j []) →
        detect_header_row grid < min 10 grid.length ∧
        2 ≤ headerScore (grid.getD (detect_header_row grid) []) ∧
        ∀ i, i < detect_header_row grid → headerScore (grid.getD i []) < 2)) ∧
    data_start_row grid = detect_header_row grid + 1 := by
  refine ⟨?_, ?_, rfl⟩
  · intro h
    unfold detect_header_row
    rw [if_pos h]
  · intro h
    have hd : detect_header_row grid =
        scanHeaderRows grid (List.range (min 10 grid.length)) := by
      unfold detect_header_row
      rw [if_neg (by omega)]
    rw [List.range_eq_range'] at hd
    constructor
    · intro hall
      rw [hd]
      exact (scanHeaderRows_range'_spec grid (min 10 grid.length) 0).1
        (fun j _ hj2 => hall j (by omega))
    · intro j hj1 hj2
      obtain ⟨h1, h2, h3, h4⟩ :=
        (scanHeaderRows_range'_spec grid (min 10 grid.length) 0).2 j (by omega)
          (by omega) hj2
      rw [hd]
      exact ⟨by omega, h3, fun i hi => h4 i (by omega) hi⟩

/-- Witness for C5 on a concrete two-row grid whose second row (index 1)
holds the header labels. -/
theorem header_detection_spec_witness :
    2 ≤ ([["分区说明"], ["展区", "作品名称", "设计作者"]] : List (List String)).length ∧
    detect_header_row [["分区说明"], ["展区", "作品名称", "设计作者"]] = 1 :=
  ⟨by norm_num,
   (header_detection_spec [["分区说明"], ["展区", "作品名称", "设计作者"]]
      (by norm_num)).1 (by decide)⟩

/-- Flattening the mapped batches recovers the map over the whole input,
whatever the batch size. -/
theorem flatten_map_batchesOf (g : α → β) (b : Nat) :
    ∀ l : List α, ((batchesOf b l).map (fun batch => batch.map g)).flatten = l.map g
  | [] => by simp [batchesOf]
  | x :: xs => by
    rw [batchesOf]
    simp only [List.map_cons, List.flatten_cons]
    rw [flatten_map_batchesOf g b (xs.drop (b - 1))]
    rw [List.cons_append, ← List.map_append, List.take_append_drop]
  termination_by l => l.length
  decreasing_by simp [List.length_drop]; omega

/-- Rescaling a vector by `c` multiplies its squared norm by `c²`. -/
theorem sumSq_l2Rescale (c : ℚ) (v : List ℚ) :
    sumSq (l2Rescale c v) = c ^ 2 * sumSq v := by
  induction v with
  | nil => simp [sumSq, l2Rescale]
  | cons x xs ih =>
    simp only [sumSq, l2Rescale, List.map_cons, List.sum_cons] at ih ⊢
    rw [ih]
    ring

/-- C8: for every non-empty input, `embed_texts` returns one vector per
text in input order (the per-text computation — tokenization, masked
forward pass, masked mean pooling, then row-wise L2 normalization — is
`nrm ∘ f`); the output length equals the input length; cutting the input
into batches of any positive size instead of the fixed 32 gives the same
output; and the row-wise L2 rescaling by the reciprocal norm produces a
vector of unit squared norm. -/
theorem embed_texts_structure (f : String → List ℚ) (nrm : List ℚ → List ℚ)
    (texts : List String) (h : texts ≠ []) :
    embed_texts f nrm texts = texts.map (fun t => nrm (f t)) ∧
    (embed_texts f nrm texts).length = texts.length ∧
    (∀ b, 0 < b → embedTextsWithBatch f nrm b texts = embed_texts f nrm texts) ∧
    (∀ (v : List ℚ) (c : ℚ), c ^ 2 * sumSq v = 1 → sumSq (l2Rescale c v) = 1) := by
  have key : ∀ (b : Nat) (l : List String),
      ((batchesOf b l).map (fun batch => (batch.map f).map nrm)).flatten =
        l.map (fun t => nrm (f t)) := by
    intro b l
    have hb : (fun batch : List String => (batch.map f).map nrm) =
        (fun batch : List String => batch.map (fun t => nrm (f t))) := by
      funext batch
      rw [List.map_map]
      rfl
    rw [hb]
    exact flatten_map_batchesOf (fun t => nrm (f t)) b l
  have h1 : embed_texts f nrm texts = texts.map (fun t => nrm (f t)) := by
    unfold embed_texts
    rw [if_neg h]
    exact key 32 texts
  refine ⟨h1, ?_, ?_, ?_⟩
  · rw [h1, List.length_map]
  · intro b _
    unfold embedTextsWithBatch
    rw [if_neg h, key b texts, h1]
  · intro v c hvc
    rw [sumSq_l2Rescale, hvc]

/-- Witness for C8 at a one-element text list and the concrete rescaling of
`[3, 4]` by `1/5`. -/
theorem embed_texts_structure_witness :
    embed_texts (fun _ => [(3:ℚ), 4]) (l2Rescale (1/5)) ["作品"] =
      (["作品"] : List String).map (fun t => l2Rescale (1/5) ((fun _ => [(3:ℚ), 4]) t)) ∧
    sumSq (l2Rescale (1/5) [(3:ℚ), 4]) = 1 :=
  ⟨(embed_texts_structure (fun _ => [(3:ℚ), 4]) (l2Rescale (1/5)) ["作品"]
      (by simp)).1,
   (embed_texts_structure (fun _ => [(3:ℚ), 4]) (l2Rescale (1/5)) ["作品"]
      (by simp)).2.2.2 [(3:ℚ), 4] (1/5) (by norm_num [sumSq])⟩

/-- C7: every `basic_info` document passes through `split_documents`
unsplit; for a `detailed_info` document the chunking step produces chunks
of length at most 800 each, all of which appear in the output of
`split_documents`, and — whenever the source is long enough to require a
split — each pair of consecutive chunks shares a tail/prefix overlap of
exactly 100 characters. -/
theorem chunking_spec (docs : List Doc) (d : Doc) (hmem : d ∈ docs) :
    (docType d = "basic_info" → d ∈ split_documents docs) ∧
    (docType d = "detailed_info" →
      (∀ c ∈ chunkWindows 800 100 d.page_content.data, c.length ≤ 800) ∧
      (∀ c ∈ chunkWindows 800 100 d.page_content.data,
        ({ d with page_content := ⟨c⟩ } : Doc) ∈ split_documents docs) ∧
      (800 < d.page_content.data.length →
        ∀ i, i + 1 < (chunkWindows 800 100 d.page_content.data).length →
          ((chunkWindows 800 100 d.page_content.data).getD i []).drop 700 =
            ((chunkWindows 800 100 d.page_content.data).getD (i + 1) []).take 100 ∧
          (((chunkWindows 800 100 d.page_content.data).getD i []).drop 700).length
            = 100)) := by
  constructor
  · intro h
    unfold split_documents
    apply List.mem_append_left
    apply List.mem_append_left
    apply List.mem_append_left
    apply List.mem_append_left
    apply List.mem_append_left
    exact List.mem_filter.mpr ⟨hmem, by simp [h]⟩
  · intro h
    refine ⟨?_, ?_, ?_⟩
    · intro c hc
      unfold chunkWindows at hc
      split at hc
      · rename_i hlen
        rcases List.mem_singleton.mp hc with rfl
        exact hlen
      · obtain ⟨i, _, rfl⟩ := List.mem_map.mp hc
        rw [List.length_take]
        exact min_le_left _ _
    · intro c hc
      unfold split_documents
      apply List.mem_append_left
      apply List.mem_append_left
      apply List.mem_append_left
      apply List.mem_append_right
      unfold splitDocsWith
      apply List.mem_flatten.mpr
      refine ⟨(chunkWindows 800 100 d.page_content.data).map
        (fun c => { d with page_content := ⟨c⟩ }), ?_, ?_⟩
      · exact List.mem_map_of_mem _ (List.mem_filter.mpr ⟨hmem, by simp [h]⟩)
      · exact List.mem_map_of_mem _ hc
    · intro hlong i hi
      have hn : (chunkWindows 800 100 d.page_content.data).length =
          (d.page_content.data.length - 800 + 699) / 700 + 1 := by
        unfold chunkWindows
        rw [if_neg (by omega)]
        rw [List.length_map, List.length_range]
      set xs := d.page_content.data with hxs
      set len := xs.length with hlen
      have hq : i + 1 ≤ (len - 800 + 699) / 700 := by omega
      have hstep : 700 * (i + 1) ≤ len - 101 := by
        have h700 : ((len - 800 + 699) / 700) * 700 ≤ len - 800 + 699 :=
          Nat.div_mul_le_self _ _
        have : (i + 1) * 700 ≤ ((len - 800 + 699) / 700) * 700 :=
          Nat.mul_le_mul_right _ hq
        omega
      have hgetD : ∀ (j : Nat), j < (chunkWindows 800 100 xs).length →
          (chunkWindows 800 100 xs).getD j [] = (xs.drop (700 * j)).take 800 := by
        intro j hj
        unfold chunkWindows
        rw [if_neg (by omega)]
        unfold chunkWindows at hj
        rw [if_neg (by omega)] at hj
        rw [List.length_map, List.length_range] at hj
        rw [List.getD_eq_getElem?_getD, List.getElem?_map]
        rw [List.getElem?_range hj]
        rfl
      rw [hgetD i (by omega), hgetD (i + 1) (by omega)]
      constructor
      · rw [List.drop_take, List.drop_drop, List.take_take]
        have e1 : (800 : Nat) - 700 = 100 := by norm_num
        have e2 : 700 * i + 700 = 700 * (i + 1) := by ring
        have e3 : min 100 800 = 100 := by norm_num
        rw [e1, e2, e3]
      · rw [List.length_drop, List.length_take, List.length_drop]
        have : min 800 (len - 700 * i) = 800 := by omega
        rw [this]

/-- Witness for C7 on the one-document list containing an 801-character
`detailed_info` document. -/
theorem chunking_spec_witness :
    (sampleDetailedDoc ∈ [sampleDetailedDoc]) ∧
    docType sampleDetailedDoc = "detailed_info" ∧
    (∀ c ∈ chunkWindows 800 100 sampleDetailedDoc.page_content.data, c.length ≤ 800) := by
  refine ⟨List.mem_singleton.mpr rfl, rfl, ?_⟩
  exact ((chunking_spec [sampleDetailedDoc] sampleDetailedDoc
    (List.mem_singleton.mpr rfl)).2 rfl).1

/-- `pyStrip` of the empty string is empty. -/
theorem pyStrip_empty : pyStrip "" = "" := rfl

/-- `extract_item_info` either discards the row or returns a field map with
a non-empty `作品名称` value. -/
theorem extract_item_info_item_name (row header : List String) (sheet : String) :
    extract_item_info row header sheet = [] ∨
    dictGetD (extract_item_info row header sheet) "作品名称" "" ≠ "" := by
  simp only [extract_item_info]
  split
  · left
    rfl
  · split_ifs <;>
      first
        | (left; rfl)
        | (rename_i hcond; push_neg at hcond; exact Or.inr hcond.2)

/-- C6: a row whose extracted field map lacks a non-empty `作品名称` value
is discarded by `_extract_item_info`; `_create_documents_for_item` emits no
document for a field map without a non-empty `作品名称`; and every document
it does emit carries a non-empty `item_name` metadata value. -/
theorem item_name_gate (filePath sheet : String) (row header : List String)
    (info : List (String × String)) :
    (dictGetD (extract_item_info row header sheet) "作品名称" "" = "" →
      extract_item_info row header sheet = []) ∧
    (pyStrip (dictGetD info "作品名称" "") = "" →
      create_documents_for_item filePath info sheet = []) ∧
    (∀ d ∈ create_documents_for_item filePath info sheet,
      ∃ v, metaGetStr d.metadata "item_name" = some v ∧ v ≠ "") := by
  refine ⟨?_, ?_, ?_⟩
  · intro hget
    rcases extract_item_info_item_name row header sheet with h | h
    · exact h
    · exact absurd hget h
  · intro hstrip
    unfold create_documents_for_item
    rw [if_pos (Or.inl hstrip)]
  · intro d hd
    simp only [create_documents_for_item] at hd
    split at hd
    · simp at hd
    · rename_i hname
      push_neg at hname
      simp only [List.mem_filterMap, List.mem_cons, List.mem_singleton, id] at hd
      obtain ⟨o, ho, hod⟩ := hd
      have hraw : dictGetD info "作品名称" "" ≠ "" := by
        intro hv
        exact hname.1 (by rw [hv]; rfl)
      rcases ho with rfl | rfl | rfl | rfl | h
      · simp only [create_basic_info_doc] at hod
        split at hod
        · exact absurd hod (by simp)
        · rw [Option.some.injEq] at hod
          rw [← hod]
          exact ⟨pyStrip (dictGetD info "作品名称" ""), rfl, hname.1⟩
      · simp only [create_detailed_info_doc] at hod
        split at hod
        · exact absurd hod (by simp)
        · rw [Option.some.injEq] at hod
          rw [← hod]
          exact ⟨dictGetD info "作品名称" "", rfl, hraw⟩
      · simp only [create_design_concept_doc] at hod
        split at hod
        · exact absurd hod (by simp)
        · rw [Option.some.injEq] at hod
          rw [← hod]
          exact ⟨dictGetD info "作品名称" "", rfl, hraw⟩
      · simp only [create_tech_info_doc] at hod
        split at hod
        · exact absurd hod (by simp)
        · rw [Option.some.injEq] at hod
          rw [← hod]
          exact ⟨dictGetD info "作品名称" "", rfl, hraw⟩
      · exact absurd h (by simp)

/-- Witness for C6: a row without any `作品名称` column is discarded; a
field map without `作品名称` yields zero documents; and the document built
for the map `{作品名称: 测试作品}` carries a non-empty `item_name`. -/
theorem item_name_gate_witness :
    (dictGetD (extract_item_info ["设计说明"] ["备注"] "艺术与科技类") "作品名称" "" = "" ∧
     extract_item_info ["设计说明"] ["备注"] "艺术与科技类" = []) ∧
    (pyStrip (dictGetD [("展区", "A区")] "作品名称" "") = "" ∧
     create_documents_for_item "test.xlsx" [("展区", "A区")] "工业设计类" = []) ∧
    ((create_documents_for_item "test.xlsx" [("作品名称", "测试作品")] "工业设计类").getD 0
        sampleDetailedDoc ∈
      create_documents_for_item "test.xlsx" [("作品名称", "测试作品")] "工业设计类" ∧
     ∃ v, metaGetStr ((create_documents_for_item "test.xlsx" [("作品名称", "测试作品")]
          "工业设计类").getD 0 sampleDetailedDoc).metadata "item_name" = some v ∧ v ≠ "") := by
  have hmem : (create_documents_for_item "test.xlsx" [("作品名称", "测试作品")]
      "工业设计类").getD 0 sampleDetailedDoc ∈
      create_documents_for_item "test.xlsx" [("作品名称", "测试作品")] "工业设计类" := by
    have hlen : (create_documents_for_item "test.xlsx" [("作品名称", "测试作品")]
        "工业设计类").length = 1 := rfl
    rw [List.getD_eq_getElem?_getD, List.getElem?_eq_getElem (by omega)]
    exact List.getElem_mem _
  exact ⟨⟨rfl, (item_name_gate "test.xlsx" "艺术与科技类" ["设计说明"] ["备注"] []).1 rfl⟩,
    ⟨rfl, (item_name_gate "test.xlsx" "工业设计类" [] [] [("展区", "A区")]).2.1 rfl⟩,
    hmem,
    (item_name_gate "test.xlsx" "工业设计类" [] [] [("作品名称", "测试作品")]).2.2 _ hmem⟩

end VLRag
